import Mathlib

/-!
Verification of the hydrophone data-request orchestration core
(src/hydrophone/core/onc_client.py and src/hydrophone/utils/helpers.py).

The embedding is shallow: each Python function relevant to the verified
properties is translated into an executable Lean definition.  Remote calls
are modelled by explicit environment values describing the response the
remote service returns at each call site; instants are integers (seconds
since an epoch); Python string tests are modelled with Lean string
operations; Python truthiness of optional integers is modelled explicitly.
-/

set_option autoImplicit false

namespace Hydro

/-- Prefix test on character lists. -/
def startsWithList : List Char → List Char → Bool
  | _, [] => true
  | [], _ :: _ => false
  | a :: as, b :: bs => a == b && startsWithList as bs

/-- Occurrence test for a contiguous pattern inside a character list. -/
def containsSubList (pat : List Char) : List Char → Bool
  | [] => pat.isEmpty
  | c :: rest => startsWithList (c :: rest) pat || containsSubList pat rest

/-- Membership test for a substring, modelling the Python `pat in s` test. -/
def containsSub (s pat : String) : Bool :=
  containsSubList pat.data s.data

/-- Lower-casing of a string, modelling the Python lower method. -/
def lowerStr (s : String) : String :=
  ⟨s.data.map Char.toLower⟩

/-- Upper-casing of a string, modelling the Python upper method. -/
def upperStr (s : String) : String :=
  ⟨s.data.map Char.toUpper⟩

/-- Python truthiness of an optional integer: `None` and `0` are falsy. -/
def pyTruthyNat : Option Nat → Bool
  | none => false
  | some n => n != 0

/-! ## Deployment matcher

Models `find_overlapping_deployments` (onc_client.py lines 90-124).
A deployment's parsed `begin` instant is `none` when the `begin` string is
missing or unparseable; `depEnd = none` models an absent `end` (an
open-ended deployment, compared against the current instant `now`). -/

structure Deployment where
  depBegin : Option Int
  depEnd : Option Int
  deriving Repr, DecidableEq

/-- Effective end of a deployment: the parsed `end` instant, or the current
instant when `end` is absent (`e = dtparse.isoparse(e_str) if e_str else utcnow`). -/
def endEffective (now : Int) (d : Deployment) : Int :=
  d.depEnd.getD now

/-- The per-deployment loop of `find_overlapping_deployments`: a deployment
without a parseable `begin` is skipped and counted; otherwise it is selected
iff `b <= end_utc and e >= start_utc`.  Returns the selected deployments in
listing order together with the skipped-deployment count. -/
def findOverlappingDeployments (now startUtc endUtc : Int) :
    List Deployment → List Deployment × Nat
  | [] => ([], 0)
  | d :: rest =>
    let acc := findOverlappingDeployments now startUtc endUtc rest
    match d.depBegin with
    | none => (acc.1, acc.2 + 1)
    | some b =>
      if b ≤ endUtc ∧ endEffective now d ≥ startUtc then (d :: acc.1, acc.2)
      else (acc.1, acc.2)

/-! ## Bounded retry with backoff

Models `retry_request` (helpers.py lines 175-206).  The remote call is an
oracle from the attempt number to an outcome; an HTTP error carries the
response status code (`none` when the exception has no response object).
The result records whether a value was returned, how many attempts were
made, and the sleeps performed between attempts. -/

inductive ReqOutcome where
  | success
  | httpFail (respCode : Option Nat)
  deriving Repr, DecidableEq

structure RetryResult where
  ok : Bool
  attempts : Nat
  waits : List Nat
  deriving Repr, DecidableEq

/-- Loop body of `retry_request`: `remaining` counts the loop iterations left
out of `maxRetries`; a 500 response with `attempt < maxRetries - 1` sleeps
`initial_wait * 2 ** attempt` and continues; any other HTTP error, or a 500
on the last attempt, re-raises (modelled as `ok := false`). -/
def retryRequestAux (responses : Nat → ReqOutcome) (maxRetries initialWait : Nat) :
    Nat → Nat → List Nat → RetryResult
  | attempt, 0, waitsAcc => ⟨false, attempt, waitsAcc.reverse⟩
  | attempt, remaining + 1, waitsAcc =>
    match responses attempt with
    | .success => ⟨true, attempt + 1, waitsAcc.reverse⟩
    | .httpFail code =>
      if code = some 500 ∧ attempt < maxRetries - 1 then
        retryRequestAux responses maxRetries initialWait (attempt + 1) remaining
          (initialWait * 2 ^ attempt :: waitsAcc)
      else ⟨false, attempt + 1, waitsAcc.reverse⟩

/-- Models `retry_request(func, max_retries, initial_wait)` applied to a call
whose successive outcomes are given by `responses`. -/
def retryRequest (responses : Nat → ReqOutcome) (maxRetries initialWait : Nat) : RetryResult :=
  retryRequestAux responses maxRetries initialWait 0 maxRetries []

/-- A data-product request as seen by the job-preparation loop of
`request_onc_jobs` (onc_client.py lines 666-696): the wrapped
`retry_request` call either returned a dict with a `dpRequestId`, a dict
without one, or ended in an exception (HTTP error or otherwise), which the
loop catches and logs before continuing with the next product. -/
inductive ProductReq where
  | okId (requestId : Nat)
  | okNoId
  | errored
  deriving Repr, DecidableEq

/-- Job-preparation loop over the products of `request_onc_jobs`: a job is
appended only for requests that returned a request id; errored requests are
skipped (the `except` clauses end in `continue`). -/
def prepareJobs : List ProductReq → List Nat
  | [] => []
  | .okId rid :: rest => rid :: prepareJobs rest
  | .okNoId :: rest => prepareJobs rest
  | .errored :: rest => prepareJobs rest

/-! ## Fallback per-file download loop

Models the individual-download loop and the summary of
`_attempt_fallback_download` (onc_client.py lines 871-988).  Each file-info
entry records whether its index field is truthy and what the download
attempt does: return an HTTP-like status code, raise `FileExistsError`, or
raise some other exception (in which case, for mat/pdf extensions only, a
single retry is attempted and `retryOk` tells whether it returned 200). -/

inductive FbEvent where
  | httpStatus (code : Nat)
  | existsLocal
  | raised (retryOk : Bool)
  deriving Repr, DecidableEq

structure FbInfo where
  indexOk : Bool
  event : FbEvent
  deriving Repr, DecidableEq

structure FbCounts where
  downloaded : Nat
  skipped : Nat
  failed : Nat
  deriving Repr, DecidableEq

/-- Extension test for the longer-wait handling:
`needs_longer_wait = file_ext.lower() in ('mat', 'pdf')`. -/
def needsLongerWait (fileExt : String) : Bool :=
  lowerStr fileExt = "mat" || lowerStr fileExt = "pdf"

/-- One iteration of the fallback download loop: a missing index counts as
failed; status 200 counts as downloaded, 777 as skipped, any other code as
failed; `FileExistsError` counts as skipped; another exception counts as
failed, then for mat/pdf a retry that returns 200 moves the file from
failed to downloaded. -/
def fallbackFileStep (longWait : Bool) (c : FbCounts) (f : FbInfo) : FbCounts :=
  if !f.indexOk then { c with failed := c.failed + 1 }
  else
    match f.event with
    | .httpStatus code =>
      if code = 200 then { c with downloaded := c.downloaded + 1 }
      else if code = 777 then { c with skipped := c.skipped + 1 }
      else { c with failed := c.failed + 1 }
    | .existsLocal => { c with skipped := c.skipped + 1 }
    | .raised retryOk =>
      let c1 : FbCounts := { c with failed := c.failed + 1 }
      if longWait && retryOk then
        { c1 with downloaded := c1.downloaded + 1, failed := c1.failed - 1 }
      else c1

/-- The whole individual-download loop over the valid file infos. -/
def fallbackLoop (fileExt : String) (infos : List FbInfo) : FbCounts :=
  infos.foldl (fallbackFileStep (needsLongerWait fileExt)) ⟨0, 0, 0⟩

/-- Fallback summary (onc_client.py lines 975-983): success when there are
no failures, or when at least one file was downloaded or skipped; failure
only when every attempted file failed. -/
def fallbackSummary (c : FbCounts) : Bool :=
  if c.failed = 0 then true
  else if c.downloaded > 0 || c.skipped > 0 then true
  else false

/-! ## Data-product job processing

Models the `dataproduct` branch of `process_download_jobs`
(onc_client.py lines 1020-1241).  The environment below records what the
remote service answers at each call the branch makes: the run call, the
post-run status check, the bulk download call, the pre-fallback status
re-check, and the boolean outcome of `_attempt_fallback_download` when it
is invoked.  Sleeps and overwrite flags do not affect the recorded
outcomes and are not modelled. -/

/-- Result of `runDataProduct(request_id)`: a dict with optional `dpRunId`,
a `runIds` array (empty when absent or empty), and `fileCount` (`-1` when
the key is missing); a non-dict response; an `HTTPError` carrying a response
status code (`none` when the exception has no response) and whether the
message mentions "api error 71" or "permissions not granted"; or another
exception. -/
inductive RunCall where
  | respDict (dpRunId : Option Nat) (runIds : List Nat) (fileCount : Int)
  | notDict
  | httpFail (respCode : Option Nat) (permText : Bool)
  | raised
  deriving Repr, DecidableEq

/-- Result of a `checkDataProduct` call: a dict (or non-empty list of
dicts) whose `searchHdrStatus` is the given string ("?" when the key is
missing), a response of another shape (parsed as "?"), or an exception. -/
inductive StatusCall where
  | respStatus (searchHdrStatus : String)
  | respOdd
  | raised
  deriving Repr, DecidableEq

/-- One element of the list returned by `downloadDataProduct`: a dict with
its `status` string ("" when missing) and `downloaded` flag, or a non-dict
entry (which matches none of the three classification filters). -/
inductive DlItem where
  | entry (status : String) (downloaded : Bool)
  | malformed
  deriving Repr, DecidableEq

/-- Result of `downloadDataProduct`: a list, a non-list, or an exception. -/
inductive BulkCall where
  | respList (items : List DlItem)
  | notList
  | raised
  deriving Repr, DecidableEq

/-- Remote behaviour observed while processing one data-product job. -/
structure JobEnv where
  run : RunCall
  statusAfterRun : StatusCall
  bulk : BulkCall
  statusBeforeFb : StatusCall
  fbOutcome : Bool
  deriving Repr, DecidableEq

/-- Per-job record stored in `job_statuses`, with two instrumentation flags
recording whether the bulk download call and the fallback downloader were
actually invoked for the job. -/
structure JobOutcome where
  status : String
  reason : String
  filesExpected : Int
  filesDownloaded : Int
  filesSkipped : Int
  filesFailed : Int
  bulkAttempted : Bool
  fallbackAttempted : Bool
  deriving Repr, DecidableEq

/-- Status-synonym test `final_onc_status in ['COMPLETE', 'COMPLETED']`,
applied to an already upper-cased string. -/
def isCompleteStatus (s : String) : Bool :=
  s = "COMPLETE" || s = "COMPLETED"

/-- Terminal-failure test `final_onc_status in ['FAILED', 'CANCELLED']`. -/
def isFailedStatus (s : String) : Bool :=
  s = "FAILED" || s = "CANCELLED"

/-- Extraction of the run id from the `runDataProduct` response: take
`dpRunId` if truthy, otherwise the first element of a non-empty `runIds`
array. -/
def extractRunId (dpRunId : Option Nat) (runIds : List Nat) : Option Nat :=
  if pyTruthyNat dpRunId then dpRunId
  else
    match runIds with
    | [] => dpRunId
    | r :: _ => some r

/-- Parsed status of the post-run `checkDataProduct` response (exceptions
are handled separately at that call site). -/
def statusCallString : StatusCall → String
  | .respStatus s => s
  | .respOdd => "?"
  | .raised => "?"

/-- Parsed status for the pre-fallback re-check, where an exception leaves
`final_status_fb` at its initial value "UNKNOWN". -/
def statusBeforeFbString : StatusCall → String
  | .respStatus s => upperStr s
  | .respOdd => "?"
  | .raised => "UNKNOWN"

/-- Count of bulk result entries classified as successful:
`status.lower() == 'complete' or downloaded is True`. -/
def countSucc (items : List DlItem) : Nat :=
  items.countP fun it =>
    match it with
    | .entry st dl => lowerStr st = "complete" || dl
    | .malformed => false

/-- Count of bulk result entries classified as errors:
`'error' in status.lower()`. -/
def countErr (items : List DlItem) : Nat :=
  items.countP fun it =>
    match it with
    | .entry st _ => containsSub (lowerStr st) "error"
    | .malformed => false

/-- Count of bulk result entries classified as skipped:
`status.lower() == 'skipped'`. -/
def countSkip (items : List DlItem) : Nat :=
  items.countP fun it =>
    match it with
    | .entry st _ => lowerStr st = "skipped"
    | .malformed => false

/-- State after Step 1 (run and post-run status check,
onc_client.py lines 1034-1109). -/
structure Step1State where
  runSucceeded : Bool
  jobSucceeded : Bool
  status : String
  reason : String
  actualRunId : Option Nat
  filesExpected : Int
  jobStatusFinal : String
  deriving Repr, DecidableEq

/-- Step 1 of the data-product branch: run the request, extract the run id,
re-check the remote status, and resolve zero-file complete jobs
immediately.  A 400 HTTP error whose message indicates missing permissions
marks the job Skipped and treats it as succeeded. -/
def runStep (run : RunCall) (statusAfterRun : StatusCall) : Step1State :=
  match run with
  | .raised => ⟨false, false, "Unknown", "", none, -1, "RUN_ERROR"⟩
  | .httpFail respCode permText =>
    if respCode = some 400 ∧ permText then
      ⟨false, true, "Skipped", "Permissions Error (API 71)", none, -1, "RUN_ERROR"⟩
    else
      ⟨false, false, "Failed", "Run Step HTTP Error", none, -1, "RUN_ERROR"⟩
  | .notDict => ⟨false, false, "Unknown", "", none, -1, "INVALID_RESPONSE"⟩
  | .respDict dpRunId runIds fileCount =>
    let rid := extractRunId dpRunId runIds
    if pyTruthyNat rid then
      match statusAfterRun with
      | .raised => ⟨false, false, "Unknown", "", rid, fileCount, "STATUS_CHECK_ERROR"⟩
      | sc =>
        let st := upperStr (statusCallString sc)
        if isCompleteStatus st then
          if fileCount = 0 then
            ⟨true, true, "Success", "0 Files Generated", rid, fileCount, "UNKNOWN"⟩
          else
            ⟨true, false, "Unknown", "", rid, fileCount, "UNKNOWN"⟩
        else if isFailedStatus st then
          ⟨false, false, "Failed", s!"ONC Status {st}", rid, fileCount, "UNKNOWN"⟩
        else
          ⟨false, false, "Failed", s!"Unknown ONC Status {st}", rid, fileCount, "UNKNOWN"⟩
    else
      ⟨false, false, "Unknown", "", rid, fileCount, "INVALID_RUN_INFO"⟩

/-- State after Step 2 (bulk download, onc_client.py lines 1124-1185). -/
structure Step2State where
  jobSucceeded : Bool
  status : String
  reason : String
  triggerFb : Bool
  dl : Int
  sk : Int
  fl : Int
  deriving Repr, DecidableEq

/-- Step 2 of the data-product branch: classify the bulk download result.
An empty list with zero expected files confirms success; an empty list
otherwise, a non-list, or an exception triggers the fallback; a non-empty
list is classified by the skipped / error / success counts, with the
skipped test performed first. -/
def bulkStep (bulk : BulkCall) (filesExpected : Int) (status0 reason0 : String) : Step2State :=
  match bulk with
  | .raised => ⟨false, status0, reason0, true, 0, 0, 0⟩
  | .notList => ⟨false, status0, reason0, true, 0, 0, 0⟩
  | .respList items =>
    match items with
    | [] =>
      if filesExpected = 0 then
        ⟨true, "Success", "0 Files Generated (Confirmed)", false, 0, 0, 0⟩
      else ⟨false, status0, reason0, true, 0, 0, 0⟩
    | _ :: _ =>
      let nSucc : Int := countSucc items
      let nErr : Int := countErr items
      let nSkip : Int := countSkip items
      if nSkip > 0 then ⟨true, "Success", "Files Already Exist", false, 0, nSkip, nErr⟩
      else if nErr > 0 then ⟨false, status0, reason0, true, nSucc, nSkip, nErr⟩
      else if nSucc > 0 then ⟨true, "Success", reason0, false, nSucc, nSkip, nErr⟩
      else ⟨false, status0, reason0, true, nSucc, nSkip, nErr⟩

/-- Final status determination (onc_client.py lines 1225-1228): a job that
did not succeed and is not already Skipped or Failed is marked Failed with
a default reason derived from the tracked processing state. -/
def finalizeOutcome (jobSucceeded : Bool) (status reason jobStatusFinal : String) :
    String × String :=
  if !jobSucceeded && status ≠ "Skipped" && status ≠ "Failed" then
    ("Failed",
      if reason = "" then
        if jobStatusFinal ≠ "UNKNOWN" then s!"Processing Failed (ONC Status: {jobStatusFinal})"
        else "Processing Failed"
      else reason)
  else (status, reason)

/-- Whole processing of one data-product job: Step 1 (run and status
check), Step 2 (bulk download) when the run succeeded and the job is not
already resolved, Step 3 (pre-fallback re-check and fallback) when the bulk
stage was inconclusive, then the final status determination and the details
record. -/
def processDataProductJob (env : JobEnv) : JobOutcome :=
  let s1 := runStep env.run env.statusAfterRun
  if s1.runSucceeded && !s1.jobSucceeded then
    match s1.actualRunId with
    | none =>
      let fin := finalizeOutcome false "Failed" "Missing Run ID" s1.jobStatusFinal
      ⟨fin.1, fin.2, s1.filesExpected, 0, 0, 0, false, false⟩
    | some _ =>
      let s2 := bulkStep env.bulk s1.filesExpected s1.status s1.reason
      if s2.triggerFb && !s2.jobSucceeded then
        if isCompleteStatus (statusBeforeFbString env.statusBeforeFb) then
          let fb := env.fbOutcome
          let st3 := if fb then "Success" else "Failed"
          let rs3 :=
            if fb then "Fallback Attempted (Succeeded/Partial)"
            else "Fallback Attempted (Failed)"
          let dl3 : Int := if fb then s1.filesExpected else 0
          let fl3 : Int := if fb then 0 else s1.filesExpected
          let fin := finalizeOutcome fb st3 rs3 s1.jobStatusFinal
          ⟨fin.1, fin.2, s1.filesExpected, dl3, s2.sk, fl3, true, true⟩
        else
          let fin := finalizeOutcome false s2.status s2.reason s1.jobStatusFinal
          ⟨fin.1, fin.2, s1.filesExpected, s2.dl, s2.sk, s2.fl, true, false⟩
      else
        let fin := finalizeOutcome s2.jobSucceeded s2.status s2.reason s1.jobStatusFinal
        ⟨fin.1, fin.2, s1.filesExpected, s2.dl, s2.sk, s2.fl, true, false⟩
  else
    let fin := finalizeOutcome s1.jobSucceeded s1.status s1.reason s1.jobStatusFinal
    ⟨fin.1, fin.2, s1.filesExpected, 0, 0, 0, false, false⟩

/-- Aggregation loop of `process_download_jobs` (onc_client.py lines
1416-1424): the overall success flag starts true and is cleared whenever a
job's final status is Failed; one outcome record is appended per job. -/
def processJobs (envs : List JobEnv) : Bool × List JobOutcome :=
  envs.foldl
    (fun acc env =>
      let o := processDataProductJob env
      (if o.status = "Failed" then false else acc.1, acc.2 ++ [o]))
    (true, [])

/-! ## Archive listing and selective download

Models the `archive` branch of `process_download_jobs`
(onc_client.py lines 1244-1414), outside test mode.  The local output
directory is a list of filenames; the download primitive `getFile` is an
oracle from the filename to an outcome (success, a `FileExistsError`, or
another exception). -/

/-- One element of the archive listing: a dict with its (possibly empty)
filename string, or a non-dict entry. -/
inductive ArcItem where
  | entry (filename : String)
  | malformed
  deriving Repr, DecidableEq

/-- Filename of a listing entry when it is a dict with a truthy
`filename`, mirroring `isinstance(f, dict) and f.get('filename')`. -/
def getNameOpt : ArcItem → Option String
  | .entry f => if f = "" then none else some f
  | .malformed => none

/-- Thumbnail filtering (onc_client.py lines 1262-1266): for the png
extension, keep only dict entries with a truthy filename that contains
neither "-small.png" nor "-thumb.png" (lower-cased); other extensions are
not filtered. -/
def filterArchiveItems (ext : String) (items : List ArcItem) : List ArcItem :=
  if ext = "png" then
    items.filter fun it =>
      match getNameOpt it with
      | none => false
      | some f => !containsSub (lowerStr f) "-small.png" && !containsSub (lowerStr f) "-thumb.png"
  else items

/-- Outcome of one `getFile` call. -/
inductive ArcDl where
  | okDl
  | existsErr
  | failDl
  deriving Repr, DecidableEq

/-- Result of the archive listing call (success with the file entries, or
an HTTP/other error caught by the listing handler). -/
inductive ArcListing where
  | okList (items : List ArcItem)
  | listFail
  deriving Repr, DecidableEq

/-- Per-extension archive outcome together with the local directory
contents after the run. -/
structure ArchiveOutcome where
  found : Nat
  downloaded : Nat
  skipped : Nat
  failed : Int
  status : String
  reason : String
  localAfter : List String
  deriving Repr, DecidableEq

/-- The archive download loop (onc_client.py lines 1374-1387): each needed
filename is fetched; success counts as downloaded and writes the file,
`FileExistsError` counts as skipped, any other error counts as failed and
the loop continues with the next filename.  Returns
(downloaded, skipped, failed, new files written). -/
def archiveDownloadLoop (oracle : String → ArcDl) :
    List String → Nat × Nat × Nat × List String
  | [] => (0, 0, 0, [])
  | f :: rest =>
    let acc := archiveDownloadLoop oracle rest
    match oracle f with
    | .okDl => (acc.1 + 1, acc.2.1, acc.2.2.1, f :: acc.2.2.2)
    | .existsErr => (acc.1, acc.2.1 + 1, acc.2.2.1, acc.2.2.2)
    | .failDl => (acc.1, acc.2.1, acc.2.2.1 + 1, acc.2.2.2)

/-- Whole processing of one archive job outside test mode: list and filter
the candidates, resolve the no-file case as success, skip candidates whose
filename already exists locally, download the missing ones, and classify
the outcome: Success when there are no failures or every candidate was
skipped, Failed otherwise; a listing error fails the job with a failed
count of -1. -/
def processArchiveJob (ext : String) (localFiles : List String)
    (oracle : String → ArcDl) (listing : ArcListing) : ArchiveOutcome :=
  match listing with
  | .listFail => ⟨0, 0, 0, -1, "Failed", "Listing Error", localFiles⟩
  | .okList items =>
    let filtered := filterArchiveItems ext items
    let found := filtered.length
    if found = 0 then ⟨0, 0, 0, 0, "Success", "No Files Found", localFiles⟩
    else
      let names := filtered.filterMap getNameOpt
      let existing := names.filter fun n => localFiles.contains n
      let toDownload := names.filter fun n => !localFiles.contains n
      let loopRes := archiveDownloadLoop oracle toDownload
      let downloaded := loopRes.1
      let skipped := existing.length + loopRes.2.1
      let failed := loopRes.2.2.1
      let localAfter := localFiles ++ loopRes.2.2.2
      if failed = 0 ∨ skipped = found then
        ⟨found, downloaded, skipped, failed, "Success",
          if skipped = found then "All Files Already Exist" else "", localAfter⟩
      else
        ⟨found, downloaded, skipped, failed, "Failed", "Download Error(s)", localAfter⟩

/-! ## Helper lemmas -/

theorem findOverlap_sound (now startUtc endUtc : Int) (deps : List Deployment)
    (d : Deployment)
    (hd : d ∈ (findOverlappingDeployments now startUtc endUtc deps).1) :
    ∃ b, d.depBegin = some b ∧ b ≤ endUtc ∧ endEffective now d ≥ startUtc := by
  induction deps with
  | nil => simp [findOverlappingDeployments] at hd
  | cons x rest ih =>
    obtain ⟨xb, xe⟩ := x
    cases xb with
    | none =>
      simp only [findOverlappingDeployments] at hd
      exact ih hd
    | some b =>
      simp only [findOverlappingDeployments] at hd
      by_cases hc : b ≤ endUtc ∧ endEffective now ⟨some b, xe⟩ ≥ startUtc
      · rw [if_pos hc] at hd
        rcases List.mem_cons.mp hd with hdx | hdm
        · subst hdx; exact ⟨b, rfl, hc⟩
        · exact ih hdm
      · rw [if_neg hc] at hd
        exact ih hd

theorem findOverlap_complete (now startUtc endUtc : Int) (deps : List Deployment)
    (d : Deployment) (b : Int) (hmem : d ∈ deps) (hb : d.depBegin = some b)
    (hc : b ≤ endUtc ∧ endEffective now d ≥ startUtc) :
    d ∈ (findOverlappingDeployments now startUtc endUtc deps).1 := by
  induction deps with
  | nil => simp at hmem
  | cons x rest ih =>
    rcases List.mem_cons.mp hmem with hdx | hdm
    · subst hdx
      obtain ⟨db, de⟩ := d
      obtain rfl : db = some b := hb
      simp only [findOverlappingDeployments]
      rw [if_pos hc]
      exact List.mem_cons_self _ _
    · obtain ⟨xb, xe⟩ := x
      cases xb with
      | none =>
        simp only [findOverlappingDeployments]
        exact ih hdm
      | some bx =>
        simp only [findOverlappingDeployments]
        by_cases hcx : bx ≤ endUtc ∧ endEffective now ⟨some bx, xe⟩ ≥ startUtc
        · rw [if_pos hcx]
          exact List.mem_cons_of_mem _ (ih hdm)
        · rw [if_neg hcx]
          exact ih hdm

theorem findOverlap_count (now startUtc endUtc : Int) (deps : List Deployment) :
    (findOverlappingDeployments now startUtc endUtc deps).2 =
      deps.countP (fun x => x.depBegin.isNone) := by
  induction deps with
  | nil => simp [findOverlappingDeployments]
  | cons x rest ih =>
    obtain ⟨xb, xe⟩ := x
    rw [List.countP_cons]
    cases xb with
    | none => simp [findOverlappingDeployments, ih]
    | some bx =>
      by_cases hcx : bx ≤ endUtc ∧ endEffective now ⟨some bx, xe⟩ ≥ startUtc
      · simp [findOverlappingDeployments, if_pos hcx, ih]
      · simp [findOverlappingDeployments, if_neg hcx, ih]

theorem fallbackFileStep_sum (lw : Bool) (c : FbCounts) (f : FbInfo) :
    (fallbackFileStep lw c f).downloaded + (fallbackFileStep lw c f).skipped +
      (fallbackFileStep lw c f).failed =
      c.downloaded + c.skipped + c.failed + 1 := by
  rcases f with ⟨idx, ev⟩
  rcases c with ⟨d, s, fl⟩
  cases idx <;> rcases ev with code | _ | r <;>
    simp only [fallbackFileStep] <;> split_ifs <;> simp <;> omega

theorem fallbackLoop_sum_aux (lw : Bool) (infos : List FbInfo) :
    ∀ c : FbCounts,
      (infos.foldl (fallbackFileStep lw) c).downloaded +
        (infos.foldl (fallbackFileStep lw) c).skipped +
        (infos.foldl (fallbackFileStep lw) c).failed =
      c.downloaded + c.skipped + c.failed + infos.length := by
  induction infos with
  | nil => intro c; simp
  | cons f rest ih =>
    intro c
    rw [List.foldl_cons, ih]
    have := fallbackFileStep_sum lw c f
    simp only [List.length_cons]
    omega

theorem fallbackLoop_sum (fileExt : String) (infos : List FbInfo) :
    (fallbackLoop fileExt infos).downloaded + (fallbackLoop fileExt infos).skipped +
      (fallbackLoop fileExt infos).failed = infos.length := by
  have := fallbackLoop_sum_aux (needsLongerWait fileExt) infos ⟨0, 0, 0⟩
  simpa [fallbackLoop] using this

theorem retryRequestAux_attempts_le (responses : Nat → ReqOutcome)
    (maxRetries initialWait : Nat) (remaining : Nat) :
    ∀ (attempt : Nat) (waitsAcc : List Nat),
      (retryRequestAux responses maxRetries initialWait attempt remaining waitsAcc).attempts ≤
        attempt + remaining := by
  induction remaining with
  | zero => intro attempt waitsAcc; dsimp only [retryRequestAux]; omega
  | succ r ih =>
    intro attempt waitsAcc
    rw [retryRequestAux]
    split
    · dsimp only; omega
    · split_ifs with hc
      · have := ih (attempt + 1) (initialWait * 2 ^ attempt :: waitsAcc)
        omega
      · dsimp only; omega

theorem prepareJobs_append (xs ys : List ProductReq) :
    prepareJobs (xs ++ ys) = prepareJobs xs ++ prepareJobs ys := by
  induction xs with
  | nil => simp [prepareJobs]
  | cons x rest ih =>
    cases x <;> simp [prepareJobs, ih]

theorem processJobs_aux (envs : List JobEnv) :
    ∀ (b : Bool) (out : List JobOutcome),
      (envs.foldl
        (fun acc env =>
          let o := processDataProductJob env
          (if o.status = "Failed" then false else acc.1, acc.2 ++ [o])) (b, out)) =
      (b && decide (∀ e ∈ envs, (processDataProductJob e).status ≠ "Failed"),
        out ++ envs.map processDataProductJob) := by
  induction envs with
  | nil => intro b out; simp
  | cons e rest ih =>
    intro b out
    rw [List.foldl_cons]
    dsimp only
    rw [ih]
    by_cases he : (processDataProductJob e).status = "Failed"
    · simp [he]
    · simp [he]

theorem processJobs_eq (envs : List JobEnv) :
    processJobs envs =
      (decide (∀ e ∈ envs, (processDataProductJob e).status ≠ "Failed"),
        envs.map processDataProductJob) := by
  have := processJobs_aux envs true []
  simpa [processJobs] using this

theorem fallbackAttempted_path (env : JobEnv)
    (hfb : (processDataProductJob env).fallbackAttempted = true) :
    (bulkStep env.bulk (runStep env.run env.statusAfterRun).filesExpected
      (runStep env.run env.statusAfterRun).status
      (runStep env.run env.statusAfterRun).reason).jobSucceeded = false ∧
    (bulkStep env.bulk (runStep env.run env.statusAfterRun).filesExpected
      (runStep env.run env.statusAfterRun).status
      (runStep env.run env.statusAfterRun).reason).triggerFb = true ∧
    (processDataProductJob env).filesExpected =
      (runStep env.run env.statusAfterRun).filesExpected ∧
    (processDataProductJob env).filesDownloaded =
      (if env.fbOutcome then (processDataProductJob env).filesExpected else 0) ∧
    (processDataProductJob env).filesFailed =
      (if env.fbOutcome then 0 else (processDataProductJob env).filesExpected) := by
  obtain ⟨run, sar, bulk, sbf, fb⟩ := env
  simp only [processDataProductJob] at hfb ⊢
  split at hfb
  · rename_i h1
    split at hfb
    · simp at hfb
    · rename_i n h2
      split at hfb
      · rename_i h3
        split at hfb
        · rename_i h4
          simp only [h1, if_true, h2, h3, h4]
          simp only [Bool.and_eq_true, Bool.not_eq_true'] at h3
          refine ⟨h3.2, h3.1, ?_⟩
          cases fb <;> simp [finalizeOutcome]
        · simp at hfb
      · simp at hfb
  · simp at hfb

theorem archiveLoop_sum (oracle : String → ArcDl) (fs : List String) :
    (archiveDownloadLoop oracle fs).1 + (archiveDownloadLoop oracle fs).2.1 +
      (archiveDownloadLoop oracle fs).2.2.1 = fs.length := by
  induction fs with
  | nil => simp [archiveDownloadLoop]
  | cons f rest ih =>
    simp only [archiveDownloadLoop]
    cases horacle : oracle f <;> simp [horacle] <;> omega

theorem archiveLoop_allOk (oracle : String → ArcDl) (hOr : ∀ f, oracle f = .okDl)
    (fs : List String) :
    archiveDownloadLoop oracle fs = (fs.length, 0, 0, fs) := by
  induction fs with
  | nil => simp [archiveDownloadLoop]
  | cons f rest ih => simp [archiveDownloadLoop, hOr f, ih]

theorem length_filter_partition {α : Type} (p : α → Bool) (l : List α) :
    (l.filter p).length + (l.filter fun a => !p a).length = l.length := by
  induction l with
  | nil => simp
  | cons a t ih =>
    cases hp : p a <;> simp [List.filter_cons, hp] <;> omega

theorem filterMap_length_all_some (l : List ArcItem)
    (h : ∀ it ∈ l, (getNameOpt it).isSome = true) :
    (l.filterMap getNameOpt).length = l.length := by
  induction l with
  | nil => simp
  | cons a t ih =>
    have ha := h a (List.mem_cons_self a t)
    obtain ⟨v, hv⟩ := Option.isSome_iff_exists.mp ha
    rw [List.filterMap_cons, hv]
    simp only [List.length_cons]
    rw [ih fun it hit => h it (List.mem_cons_of_mem _ hit)]

/-! ## Claim theorems -/

/-- C3: a deployment with a parseable begin instant is selected iff its
begin is at most the window end and its effective end (current instant when
the end is absent) is at least the window start; a deployment without a
parseable begin is dropped, never selected, and counted. -/
theorem deployment_overlap_selection (now startUtc endUtc : Int)
    (deps : List Deployment) (hw : startUtc < endUtc) :
    (∀ d ∈ deps, ∀ b : Int, d.depBegin = some b →
      (d ∈ (findOverlappingDeployments now startUtc endUtc deps).1 ↔
        (b ≤ endUtc ∧ endEffective now d ≥ startUtc))) ∧
    (∀ d : Deployment, d.depBegin = none →
      d ∉ (findOverlappingDeployments now startUtc endUtc deps).1) ∧
    (findOverlappingDeployments now startUtc endUtc deps).2 =
      deps.countP (fun x => x.depBegin.isNone) := by
  refine ⟨?_, ?_, findOverlap_count now startUtc endUtc deps⟩
  · intro d hmem b hb
    constructor
    · intro hsel
      obtain ⟨b', hb', hc⟩ := findOverlap_sound now startUtc endUtc deps d hsel
      rw [hb] at hb'
      obtain rfl : b = b' := by injection hb'
      exact hc
    · intro hc
      exact findOverlap_complete now startUtc endUtc deps d b hmem hb hc
  · intro d hnone hsel
    obtain ⟨b', hb', _⟩ := findOverlap_sound now startUtc endUtc deps d hsel
    rw [hnone] at hb'
    exact Option.noConfusion hb'

/-- Witness for C3 at a concrete input: window (0, 10), current instant
100; a deployment beginning at 5 with no end is selected, one with a
missing begin is dropped and counted. -/
theorem deployment_overlap_selection_witness :
    (⟨some 5, none⟩ : Deployment) ∈
      (findOverlappingDeployments 100 0 10 [⟨some 5, none⟩, ⟨none, some 3⟩]).1 ∧
    (findOverlappingDeployments 100 0 10 [⟨some 5, none⟩, ⟨none, some 3⟩]).2 = 1 := by
  have h := deployment_overlap_selection 100 0 10 [⟨some 5, none⟩, ⟨none, some 3⟩]
    (by norm_num)
  refine ⟨(h.1 ⟨some 5, none⟩ (by simp) 5 rfl).mpr (by constructor <;> decide), ?_⟩
  rw [h.2.2]
  decide

/-- C2: once the fallback per-file loop has attempted at least one file,
the fallback succeeds iff at least one file was downloaded or skipped,
regardless of how many failed; it fails only when downloaded + skipped
is zero. -/
theorem fallback_partial_success_iff (fileExt : String) (infos : List FbInfo)
    (h : infos ≠ []) :
    (fallbackSummary (fallbackLoop fileExt infos) = true ↔
      0 < (fallbackLoop fileExt infos).downloaded +
        (fallbackLoop fileExt infos).skipped) := by
  have hsum := fallbackLoop_sum fileExt infos
  have hlen : 0 < infos.length := List.length_pos.mpr h
  constructor
  · intro hs
    by_contra hno
    have hd0 : (fallbackLoop fileExt infos).downloaded = 0 := by omega
    have hs0 : (fallbackLoop fileExt infos).skipped = 0 := by omega
    unfold fallbackSummary at hs
    rw [hd0, hs0] at hs
    simp at hs
    omega
  · intro hpos
    unfold fallbackSummary
    split_ifs with h1 h2
    · rfl
    · rfl
    · exfalso
      simp at h2
      omega

/-- Witness for C2: two attempted files, one downloaded and one failed,
still summarize as success. -/
theorem fallback_partial_success_iff_witness :
    fallbackSummary (fallbackLoop "png" [⟨true, .httpStatus 200⟩, ⟨true, .httpStatus 404⟩]) =
      true :=
  (fallback_partial_success_iff "png" [⟨true, .httpStatus 200⟩, ⟨true, .httpStatus 404⟩]
    (by decide)).mpr (by decide)

/-- C8 counterexample: an HTTP 503 — a 5xx status — raised on the first
submission attempt is not retried at all: the retry helper makes a single
attempt and performs no backoff sleep before re-raising. -/
theorem retry_only_500_counterexample :
    retryRequest (fun _ => .httpFail (some 503)) 3 2 = ⟨false, 1, []⟩ := by
  rfl

/-- C5: a job whose run response carries a usable run id, whose re-checked
status is Complete, and whose expected file count is zero resolves
immediately to Success with zero downloads; neither the bulk download
stage nor the fallback stage is invoked. -/
theorem zero_files_complete_immediate_success
    (dpRunId : Option Nat) (runIds : List Nat) (st : String)
    (bulk : BulkCall) (sbf : StatusCall) (fb : Bool)
    (hrid : pyTruthyNat (extractRunId dpRunId runIds) = true)
    (hst : isCompleteStatus (upperStr st) = true) :
    (processDataProductJob
      ⟨.respDict dpRunId runIds 0, .respStatus st, bulk, sbf, fb⟩).status = "Success" ∧
    (processDataProductJob
      ⟨.respDict dpRunId runIds 0, .respStatus st, bulk, sbf, fb⟩).filesDownloaded = 0 ∧
    (processDataProductJob
      ⟨.respDict dpRunId runIds 0, .respStatus st, bulk, sbf, fb⟩).bulkAttempted = false ∧
    (processDataProductJob
      ⟨.respDict dpRunId runIds 0, .respStatus st, bulk, sbf, fb⟩).fallbackAttempted = false := by
  simp [processDataProductJob, runStep, statusCallString, hrid, hst, finalizeOutcome]

/-- Witness for C5: run id 7, status string "Complete", zero expected
files. -/
theorem zero_files_complete_immediate_success_witness :
    (processDataProductJob
      ⟨.respDict (some 7) [] 0, .respStatus "Complete", .raised, .raised, false⟩).status =
      "Success" ∧
    (processDataProductJob
      ⟨.respDict (some 7) [] 0, .respStatus "Complete", .raised, .raised, false⟩).bulkAttempted =
      false :=
  have h := zero_files_complete_immediate_success (some 7) [] "Complete" .raised .raised false
    (by decide) (by decide)
  ⟨h.1, h.2.2.1⟩

/-- C6: when the bulk download call raises an exception on a job whose run
succeeded with a nonzero expected count, the fallback path is entered iff
the re-checked status is still Complete; a job whose re-check is not
Complete skips fallback entirely and is marked Failed; and the run always
produces one outcome record per job, so no job aborts the processing of
the remaining jobs. -/
theorem bulk_exception_fallback_policy :
    (∀ (dpRunId : Option Nat) (runIds : List Nat) (fc : Int) (st1 : String)
       (sbf : StatusCall) (fb : Bool),
      pyTruthyNat (extractRunId dpRunId runIds) = true →
      isCompleteStatus (upperStr st1) = true →
      fc ≠ 0 →
      (isCompleteStatus (statusBeforeFbString sbf) = true →
        (processDataProductJob
          ⟨.respDict dpRunId runIds fc, .respStatus st1, .raised, sbf, fb⟩).fallbackAttempted =
            true ∧
        (processDataProductJob
          ⟨.respDict dpRunId runIds fc, .respStatus st1, .raised, sbf, fb⟩).status =
          (if fb then "Success" else "Failed")) ∧
      (isCompleteStatus (statusBeforeFbString sbf) = false →
        (processDataProductJob
          ⟨.respDict dpRunId runIds fc, .respStatus st1, .raised, sbf, fb⟩).fallbackAttempted =
            false ∧
        (processDataProductJob
          ⟨.respDict dpRunId runIds fc, .respStatus st1, .raised, sbf, fb⟩).status =
          "Failed")) ∧
    (∀ envs : List JobEnv, (processJobs envs).2.length = envs.length) := by
  constructor
  · intro dpRunId runIds fc st1 sbf fb hrid hst hfc
    cases hridEq : extractRunId dpRunId runIds with
    | none => rw [hridEq] at hrid; simp [pyTruthyNat] at hrid
    | some n =>
      rw [hridEq] at hrid
      constructor
      · intro hsbf
        simp [processDataProductJob, runStep, statusCallString, hridEq, hrid, hst, hfc,
          bulkStep, hsbf, finalizeOutcome]
        cases fb <;> simp
      · intro hsbf
        simp [processDataProductJob, runStep, statusCallString, hridEq, hrid, hst, hfc,
          bulkStep, hsbf, finalizeOutcome]
  · intro envs
    rw [processJobs_eq]
    simp

/-- Witness for C6: run id 7, three expected files, bulk exception; with a
Complete re-check the fallback runs (and its failure fails the job); with
an exception during the re-check the fallback is skipped and the job is
Failed. -/
theorem bulk_exception_fallback_policy_witness :
    (processDataProductJob
      ⟨.respDict (some 7) [] 3, .respStatus "COMPLETE", .raised, .respStatus "complete",
        false⟩).fallbackAttempted = true ∧
    (processDataProductJob
      ⟨.respDict (some 7) [] 3, .respStatus "COMPLETE", .raised, .raised,
        false⟩).status = "Failed" :=
  have h1 := (bulk_exception_fallback_policy.1 (some 7) [] 3 "COMPLETE"
    (.respStatus "complete") false (by decide) (by decide) (by decide)).1 (by decide)
  have h2 := (bulk_exception_fallback_policy.1 (some 7) [] 3 "COMPLETE"
    .raised false (by decide) (by decide) (by decide)).2 (by decide)
  ⟨h1.1, h2.2⟩

/-- C7: a run-step HTTP 400 error whose message indicates missing
permissions surfaces the job as Skipped, and the overall success flag of a
run is false iff at least one job's final status is Failed, so Skipped
jobs never make the run unsuccessful. -/
theorem permission_skip_and_overall_flag :
    (∀ (sc : StatusCall) (bulk : BulkCall) (sbf : StatusCall) (fb : Bool),
      (processDataProductJob ⟨.httpFail (some 400) true, sc, bulk, sbf, fb⟩).status =
        "Skipped") ∧
    (∀ envs : List JobEnv,
      ((processJobs envs).1 = false ↔
        ∃ o ∈ (processJobs envs).2, o.status = "Failed")) := by
  constructor
  · intro sc bulk sbf fb
    simp [processDataProductJob, runStep, finalizeOutcome]
  · intro envs
    rw [processJobs_eq]
    simp

/-- C10: a job resolved through the fallback path reports synthesized
details: on fallback success the downloaded count is set to the recorded
expected count (possibly -1) and the failed count to 0; on fallback
failure the failed count is set to the expected count and the downloaded
count to 0 — independently of the fallback's actual per-file outcome
counts. -/
theorem fallback_reported_details (env : JobEnv)
    (hfb : (processDataProductJob env).fallbackAttempted = true) :
    (env.fbOutcome = true →
      (processDataProductJob env).filesDownloaded =
        (processDataProductJob env).filesExpected ∧
      (processDataProductJob env).filesFailed = 0) ∧
    (env.fbOutcome = false →
      (processDataProductJob env).filesFailed =
        (processDataProductJob env).filesExpected ∧
      (processDataProductJob env).filesDownloaded = 0) := by
  have h := fallbackAttempted_path env hfb
  constructor
  · intro hfbTrue
    rw [hfbTrue] at h
    exact ⟨by simpa using h.2.2.2.1, by simpa using h.2.2.2.2⟩
  · intro hfbFalse
    rw [hfbFalse] at h
    exact ⟨by simpa using h.2.2.2.2, by simpa using h.2.2.2.1⟩

/-- Witness for C10: a fallback-resolved job whose expected count was
unknown (-1) reports downloaded = -1 and failed = 0 on fallback success. -/
theorem fallback_reported_details_witness :
    (processDataProductJob
      ⟨.respDict (some 7) [] (-1), .respStatus "COMPLETE", .raised,
        .respStatus "complete", true⟩).filesDownloaded = -1 ∧
    (processDataProductJob
      ⟨.respDict (some 7) [] (-1), .respStatus "COMPLETE", .raised,
        .respStatus "complete", true⟩).filesFailed = 0 :=
  have h := (fallback_reported_details
    ⟨.respDict (some 7) [] (-1), .respStatus "COMPLETE", .raised,
      .respStatus "complete", true⟩ (by decide)).1 rfl
  ⟨by rw [h.1]; decide, h.2⟩

/-- C1 counterexample: a bulk result containing an error entry alongside a
skipped entry (with 2 files expected) is classified as Success with no
fallback — the code tests the skipped bucket first and never compares the
skipped count to the expected count, so the presence of errors does not
make the bulk stage a failure. -/
theorem bulk_priority_counterexample :
    0 < countErr [DlItem.entry "skipped" false, DlItem.entry "error" false] ∧
    countSkip [DlItem.entry "skipped" false, DlItem.entry "error" false] <
      (2 : Int).toNat ∧
    (processDataProductJob
      ⟨.respDict (some 1) [] 2, .respStatus "complete",
        .respList [.entry "skipped" false, .entry "error" false],
        .respStatus "complete", true⟩).status = "Success" ∧
    (processDataProductJob
      ⟨.respDict (some 1) [] 2, .respStatus "complete",
        .respList [.entry "skipped" false, .entry "error" false],
        .respStatus "complete", true⟩).fallbackAttempted = false := by
  refine ⟨by decide, by decide, ?_, ?_⟩ <;> rfl

/-- C1 amended: on a non-empty bulk result list the classification tests
the skipped bucket first — any skipped entry yields success (with the
downloaded count reset to 0), regardless of error entries and without any
comparison to the expected count; only otherwise error entries trigger the
fallback; only otherwise successful downloads yield success; otherwise the
fallback is triggered.  The fallback is never entered when the bulk stage
reported success. -/
theorem bulk_classification_amended :
    (∀ (it : DlItem) (rest : List DlItem) (expected : Int) (st0 rs0 : String),
      (0 < countSkip (it :: rest) →
        (bulkStep (.respList (it :: rest)) expected st0 rs0).jobSucceeded = true ∧
        (bulkStep (.respList (it :: rest)) expected st0 rs0).status = "Success" ∧
        (bulkStep (.respList (it :: rest)) expected st0 rs0).triggerFb = false ∧
        (bulkStep (.respList (it :: rest)) expected st0 rs0).dl = 0) ∧
      (countSkip (it :: rest) = 0 → 0 < countErr (it :: rest) →
        (bulkStep (.respList (it :: rest)) expected st0 rs0).triggerFb = true ∧
        (bulkStep (.respList (it :: rest)) expected st0 rs0).jobSucceeded = false) ∧
      (countSkip (it :: rest) = 0 → countErr (it :: rest) = 0 →
        0 < countSucc (it :: rest) →
        (bulkStep (.respList (it :: rest)) expected st0 rs0).jobSucceeded = true ∧
        (bulkStep (.respList (it :: rest)) expected st0 rs0).status = "Success" ∧
        (bulkStep (.respList (it :: rest)) expected st0 rs0).triggerFb = false) ∧
      (countSkip (it :: rest) = 0 → countErr (it :: rest) = 0 →
        countSucc (it :: rest) = 0 →
        (bulkStep (.respList (it :: rest)) expected st0 rs0).triggerFb = true)) ∧
    (∀ env : JobEnv, (processDataProductJob env).fallbackAttempted = true →
      (bulkStep env.bulk (runStep env.run env.statusAfterRun).filesExpected
        (runStep env.run env.statusAfterRun).status
        (runStep env.run env.statusAfterRun).reason).jobSucceeded = false) := by
  constructor
  · intro it rest expected st0 rs0
    refine ⟨?_, ?_, ?_, ?_⟩
    · intro hsk
      have hsk' : (0 : Int) < countSkip (it :: rest) := by exact_mod_cast hsk
      simp [bulkStep, hsk']
    · intro hsk herr
      have hsk' : ¬((0 : Int) < countSkip (it :: rest)) := by
        rw [hsk]; simp
      have herr' : (0 : Int) < countErr (it :: rest) := by exact_mod_cast herr
      simp [bulkStep, hsk', herr']
    · intro hsk herr hsc
      have hsk' : ¬((0 : Int) < countSkip (it :: rest)) := by rw [hsk]; simp
      have herr' : ¬((0 : Int) < countErr (it :: rest)) := by rw [herr]; simp
      have hsc' : (0 : Int) < countSucc (it :: rest) := by exact_mod_cast hsc
      simp [bulkStep, hsk', herr', hsc']
    · intro hsk herr hsc
      have hsk' : ¬((0 : Int) < countSkip (it :: rest)) := by rw [hsk]; simp
      have herr' : ¬((0 : Int) < countErr (it :: rest)) := by rw [herr]; simp
      have hsc' : ¬((0 : Int) < countSucc (it :: rest)) := by rw [hsc]; simp
      simp [bulkStep, hsk', herr', hsc']
  · intro env hfb
    exact (fallbackAttempted_path env hfb).1

/-- Witness for C1 amended: a single skipped entry with 2 files expected
classifies as success with no fallback trigger. -/
theorem bulk_classification_amended_witness :
    (bulkStep (.respList [.entry "skipped" false]) 2 "Unknown" "").status = "Success" ∧
    (bulkStep (.respList [.entry "skipped" false]) 2 "Unknown" "").triggerFb = false :=
  have h := (bulk_classification_amended.1 (.entry "skipped" false) [] 2 "Unknown" "").1
    (by decide)
  ⟨h.2.1, h.2.2.1⟩

/-- C8 amended: only HTTP 500 (not every 5xx) is retried, with exponential
backoff and a bounded attempt count; at the call-site parameters
(3 attempts, initial wait 2) exhausting the retries yields an error result
after exactly 3 attempts with sleeps w, 2w; other 5xx codes re-raise after
one attempt; the attempt count never exceeds the bound; and an errored
request only drops that product from the prepared jobs while the
preparation loop continues across the remaining products. -/
theorem retry_bounded_500_amended :
    (∀ w : Nat, retryRequest (fun _ => .httpFail (some 500)) 3 w =
      ⟨false, 3, [w * 2 ^ 0, w * 2 ^ 1]⟩) ∧
    (∀ (responses : Nat → ReqOutcome) (code : Option Nat) (m w : Nat),
      responses 0 = .httpFail code → code ≠ some 500 → 1 ≤ m →
      retryRequest responses m w = ⟨false, 1, []⟩) ∧
    (∀ (responses : Nat → ReqOutcome) (m w : Nat),
      (retryRequest responses m w).attempts ≤ m) ∧
    (∀ xs ys : List ProductReq, prepareJobs (xs ++ ys) = prepareJobs xs ++ prepareJobs ys) ∧
    prepareJobs [.errored] = [] := by
  refine ⟨fun w => rfl, ?_, ?_, prepareJobs_append, rfl⟩
  · intro responses code m w h0 hne hm
    cases m with
    | zero => omega
    | succ mp =>
      simp only [retryRequest, retryRequestAux, h0]
      rw [if_neg (fun hc => hne hc.1)]
      rfl
  · intro responses m w
    have := retryRequestAux_attempts_le responses m w m 0 []
    simpa [retryRequest] using this

/-- Witness for C8 amended: a request whose every attempt fails with
HTTP 503 is re-raised after a single attempt with no backoff sleep. -/
theorem retry_bounded_500_amended_witness :
    retryRequest (fun _ => ReqOutcome.httpFail (some 503)) 3 2 = ⟨false, 1, []⟩ :=
  retry_bounded_500_amended.2.1 (fun _ => .httpFail (some 503)) (some 503) 3 2
    rfl (by decide) (by decide)

/-- C4: for an archive job whose listing succeeded, the outcome is Success
iff there are no failed downloads or the skipped count equals the candidate
count after thumbnail filtering; and every candidate with a usable filename
is processed (downloaded, skipped or failed), so individual failures do not
abort the batch. -/
theorem archive_success_iff (ext : String) (localFiles : List String)
    (oracle : String → ArcDl) (items : List ArcItem) :
    ((processArchiveJob ext localFiles oracle (.okList items)).status = "Success" ↔
      ((processArchiveJob ext localFiles oracle (.okList items)).failed = 0 ∨
        (processArchiveJob ext localFiles oracle (.okList items)).skipped =
          (processArchiveJob ext localFiles oracle (.okList items)).found)) ∧
    (processArchiveJob ext localFiles oracle (.okList items)).downloaded +
      (processArchiveJob ext localFiles oracle (.okList items)).skipped +
      (processArchiveJob ext localFiles oracle (.okList items)).failed.toNat =
      ((filterArchiveItems ext items).filterMap getNameOpt).length := by
  have hloop := archiveLoop_sum oracle
    (((filterArchiveItems ext items).filterMap getNameOpt).filter
      fun n => !localFiles.contains n)
  have hpart := length_filter_partition (fun n => localFiles.contains n)
    ((filterArchiveItems ext items).filterMap getNameOpt)
  simp only [processArchiveJob]
  split_ifs with h0 hcl hr
  · have hfe : filterArchiveItems ext items = [] := List.length_eq_zero.mp h0
    simp [hfe]
  · refine ⟨?_, ?_⟩
    · dsimp only
      constructor
      · intro _
        rcases hcl with h | h
        · left; exact_mod_cast h
        · right; exact h
      · intro _; rfl
    · dsimp only
      rw [Int.toNat_natCast]
      omega
  · refine ⟨?_, ?_⟩
    · dsimp only
      constructor
      · intro _
        rcases hcl with h | h
        · left; exact_mod_cast h
        · right; exact h
      · intro _; rfl
    · dsimp only
      rw [Int.toNat_natCast]
      omega
  · refine ⟨?_, ?_⟩
    · dsimp only
      constructor
      · intro hco; exact absurd hco (by decide)
      · intro hor
        exfalso
        apply hcl
        rcases hor with h | h
        · left; exact_mod_cast h
        · right; exact h
    · dsimp only
      rw [Int.toNat_natCast]
      omega

/-- C9: with every remote download succeeding and every candidate carrying
a usable filename, running the archive job a second time against the local
directory produced by the first run downloads nothing: every candidate
already exists locally, all candidates are counted as skipped, and the
second run's outcome is Success. -/
theorem archive_idempotent_second_run (ext : String) (localFiles : List String)
    (oracle : String → ArcDl) (items : List ArcItem)
    (hAll : ∀ it ∈ filterArchiveItems ext items, (getNameOpt it).isSome = true)
    (hOr : ∀ f, oracle f = .okDl) :
    (∀ n ∈ (filterArchiveItems ext items).filterMap getNameOpt,
      n ∈ (processArchiveJob ext localFiles oracle (.okList items)).localAfter) ∧
    (processArchiveJob ext
      (processArchiveJob ext localFiles oracle (.okList items)).localAfter
      oracle (.okList items)).downloaded = 0 ∧
    (processArchiveJob ext
      (processArchiveJob ext localFiles oracle (.okList items)).localAfter
      oracle (.okList items)).skipped =
      (processArchiveJob ext
        (processArchiveJob ext localFiles oracle (.okList items)).localAfter
        oracle (.okList items)).found ∧
    (processArchiveJob ext
      (processArchiveJob ext localFiles oracle (.okList items)).localAfter
      oracle (.okList items)).status = "Success" := by
  by_cases h0 : (filterArchiveItems ext items).length = 0
  · have hfe : filterArchiveItems ext items = [] := List.length_eq_zero.mp h0
    simp [processArchiveJob, hfe]
  · have hlocal1 :
        (processArchiveJob ext localFiles oracle (.okList items)).localAfter =
        localFiles ++
          ((filterArchiveItems ext items).filterMap getNameOpt).filter
            (fun n => !localFiles.contains n) := by
      simp only [processArchiveJob]
      rw [if_neg h0]
      rw [archiveLoop_allOk oracle hOr]
      split_ifs <;> rfl
    have hmemL : ∀ n ∈ (filterArchiveItems ext items).filterMap getNameOpt,
        n ∈ localFiles ++
          ((filterArchiveItems ext items).filterMap getNameOpt).filter
            (fun n => !localFiles.contains n) := by
      intro n hn
      by_cases hc : localFiles.contains n = true
      · exact List.mem_append.mpr (Or.inl (List.elem_iff.mp hc))
      · refine List.mem_append.mpr (Or.inr ?_)
        refine List.mem_filter.mpr ⟨hn, ?_⟩
        have hc' : localFiles.contains n = false := by
          cases hcc : localFiles.contains n
          · rfl
          · exact absurd hcc hc
        show (!localFiles.contains n) = true
        rw [hc']
        rfl
    have hmem : ∀ n ∈ (filterArchiveItems ext items).filterMap getNameOpt,
        n ∈ (processArchiveJob ext localFiles oracle (.okList items)).localAfter := by
      intro n hn
      rw [hlocal1]
      exact hmemL n hn
    refine ⟨hmem, ?_⟩
    rw [hlocal1]
    have hcont : ∀ n ∈ (filterArchiveItems ext items).filterMap getNameOpt,
        (localFiles ++
          ((filterArchiveItems ext items).filterMap getNameOpt).filter
            (fun n => !localFiles.contains n)).contains n = true :=
      fun n hn => List.elem_iff.mpr (hmemL n hn)
    have htoDl2 :
        ((filterArchiveItems ext items).filterMap getNameOpt).filter
          (fun n =>
            !(localFiles ++
              ((filterArchiveItems ext items).filterMap getNameOpt).filter
                (fun n => !localFiles.contains n)).contains n) = [] :=
      List.filter_eq_nil_iff.mpr fun n hn => by
        simp [hcont n hn]
        intro hnotin
        exact ⟨List.mem_filterMap.mp hn, hnotin⟩
    have hexist2 :
        ((filterArchiveItems ext items).filterMap getNameOpt).filter
          (fun n =>
            (localFiles ++
              ((filterArchiveItems ext items).filterMap getNameOpt).filter
                (fun n => !localFiles.contains n)).contains n) =
          (filterArchiveItems ext items).filterMap getNameOpt :=
      List.filter_eq_self.mpr fun n hn => hcont n hn
    have hnameslen :
        ((filterArchiveItems ext items).filterMap getNameOpt).length =
          (filterArchiveItems ext items).length :=
      filterMap_length_all_some _ hAll
    simp only [processArchiveJob]
    rw [if_neg h0, htoDl2, hexist2]
    simp [archiveDownloadLoop, hnameslen]

/-- Witness for C9: two flac candidates, empty local directory, all
downloads succeeding; the second run downloads nothing and succeeds. -/
theorem archive_idempotent_second_run_witness :
    (processArchiveJob "flac"
      (processArchiveJob "flac" [] (fun _ => .okDl)
        (.okList [.entry "a.flac", .entry "b.flac"])).localAfter
      (fun _ => .okDl) (.okList [.entry "a.flac", .entry "b.flac"])).downloaded = 0 ∧
    (processArchiveJob "flac"
      (processArchiveJob "flac" [] (fun _ => .okDl)
        (.okList [.entry "a.flac", .entry "b.flac"])).localAfter
      (fun _ => .okDl) (.okList [.entry "a.flac", .entry "b.flac"])).status = "Success" :=
  have h := archive_idempotent_second_run "flac" [] (fun _ => .okDl)
    [.entry "a.flac", .entry "b.flac"] (by decide) (fun _ => rfl)
  ⟨h.2.1, h.2.2.2⟩
